import Mathlib

/-!
Shallow embedding of `nanyan2333/threejs-china-data`:
* `src/utils/adcodeMap.ts` — the adcode → province-name resolver
  (`ADCODE_TO_PROVINCE`, `getProvinceNameByAdcode`, `getAllProvinceAdcodes`,
  `getAdcodeByProvinceName`, `isValidProvinceAdcode`);
* the payload-reshaping loop of `dblClickFn` in `src/App.tsx`.

JavaScript objects with string keys enumerate in insertion order, so the
record `ADCODE_TO_PROVINCE` is embedded as an association list in its
definition order.  An input that may be a string or a number is embedded as
`AdcodeInput`; JS numeric inputs at province double-clicks are integral
adcodes, so the numeric arm carries an `Int` and `String(adcode)` is decimal
`toString`.  JS numbers reaching `parseFloat` are embedded as `JsNum`
(`nan`, signed infinity, or an exact rational); rounding of decimal literals
to binary doubles is not modelled, which never changes whether a parse
yields the NaN sentinel.
-/

namespace ChinaData

/-- The `ADCODE_TO_PROVINCE` record from `src/utils/adcodeMap.ts`,
in its source definition order. -/
def ADCODE_TO_PROVINCE : List (String × String) :=
  [("110000", "北京市"),
   ("120000", "天津市"),
   ("130000", "河北省"),
   ("140000", "山西省"),
   ("150000", "内蒙古自治区"),
   ("210000", "辽宁省"),
   ("220000", "吉林省"),
   ("230000", "黑龙江省"),
   ("310000", "上海市"),
   ("320000", "江苏省"),
   ("330000", "浙江省"),
   ("340000", "安徽省"),
   ("350000", "福建省"),
   ("360000", "江西省"),
   ("370000", "山东省"),
   ("410000", "河南省"),
   ("420000", "湖北省"),
   ("430000", "湖南省"),
   ("440000", "广东省"),
   ("450000", "广西壮族自治区"),
   ("460000", "海南省"),
   ("500000", "重庆市"),
   ("510000", "四川省"),
   ("520000", "贵州省"),
   ("530000", "云南省"),
   ("540000", "西藏自治区"),
   ("610000", "陕西省"),
   ("620000", "甘肃省"),
   ("630000", "青海省"),
   ("640000", "宁夏回族自治区"),
   ("650000", "新疆维吾尔自治区"),
   ("710000", "台湾省"),
   ("810000", "香港特别行政区"),
   ("820000", "澳门特别行政区")]

/-- The array literal `["710000", "810000", "820000"]` that the source
repeats at each special-region check. -/
def SPECIAL_REGION_CODES : List String := ["710000", "810000", "820000"]

/-- A caller-supplied adcode: `string | number` in the source. -/
inductive AdcodeInput where
  | str (s : String)
  | num (n : Int)

/-- `String(adcode)`: the normalisation both resolver functions start with. -/
def toCodeStr : AdcodeInput → String
  | .str s => s
  | .num n => toString n

/-- The options object of `getProvinceNameByAdcode`
(`includeSpecialRegions` defaults to `true`, `returnDefault` to absent). -/
structure ResolveOptions where
  includeSpecialRegions : Bool
  returnDefault : Option String

/-- The default options value (`options` omitted). -/
def defaultResolveOptions : ResolveOptions := ⟨true, none⟩

/-- The options object of `getAllProvinceAdcodes` and
`isValidProvinceAdcode`, holding only `includeSpecialRegions`. -/
structure PolicyOptions where
  includeSpecialRegions : Bool

/-- The test `/^\d{6}$/.test(codeStr)`: exactly six ASCII decimal digits. -/
def sixDigitPattern (s : String) : Bool :=
  s.length == 6 && s.toList.all Char.isDigit

/-- `getProvinceNameByAdcode` from `src/utils/adcodeMap.ts`:
pattern check, special-region policy, table lookup, with every failure
returning `returnDefault ?? codeStr`. -/
def getProvinceNameByAdcode (adcode : AdcodeInput) (options : ResolveOptions) :
    String :=
  let codeStr := toCodeStr adcode
  if !sixDigitPattern codeStr then
    options.returnDefault.getD codeStr
  else if !options.includeSpecialRegions && SPECIAL_REGION_CODES.contains codeStr then
    options.returnDefault.getD codeStr
  else
    match List.lookup codeStr ADCODE_TO_PROVINCE with
    | some provinceName => provinceName
    | none => options.returnDefault.getD codeStr

/-- `getAllProvinceAdcodes`: `Object.keys(ADCODE_TO_PROVINCE)`, filtered
when `includeSpecialRegions` is false. -/
def getAllProvinceAdcodes (options : PolicyOptions) : List String :=
  let adcodes := ADCODE_TO_PROVINCE.map Prod.fst
  if !options.includeSpecialRegions then
    adcodes.filter (fun code => !SPECIAL_REGION_CODES.contains code)
  else
    adcodes

/-- `getAdcodeByProvinceName`: `Object.entries(...).find(([_, name]) =>
name === provinceName)`, returning the found key or null. -/
def getAdcodeByProvinceName (provinceName : String) : Option String :=
  (ADCODE_TO_PROVINCE.find? (fun e => e.2 == provinceName)).map Prod.fst

/-- `isValidProvinceAdcode`: pattern check, special-region policy, then
`codeStr in ADCODE_TO_PROVINCE`. -/
def isValidProvinceAdcode (adcode : AdcodeInput) (options : PolicyOptions) :
    Bool :=
  let codeStr := toCodeStr adcode
  if !sixDigitPattern codeStr then
    false
  else if !options.includeSpecialRegions && SPECIAL_REGION_CODES.contains codeStr then
    false
  else
    (List.lookup codeStr ADCODE_TO_PROVINCE).isSome

/-- A JS number as `parseFloat` can produce: the NaN sentinel, a signed
infinity, or a finite value (embedded as an exact rational). -/
inductive JsNum where
  | nan
  | inf (neg : Bool)
  | val (q : ℚ)
  deriving DecidableEq

/-- A JS value as it occurs inside a raw payload point: a string, a number,
or `undefined` (out-of-range indexing). -/
inductive JSVal where
  | str (s : String)
  | num (n : JsNum)
  | undefined
  deriving DecidableEq

/-- Whether a JS value is a string. -/
def JSVal.isStr : JSVal → Bool
  | .str _ => true
  | _ => false

/-- JS whitespace stripped by `parseFloat` before parsing
(the ASCII white-space and line-terminator characters). -/
def isJsWhitespace (c : Char) : Bool :=
  [' ', '\t', '\n', '\r', '\x0b', '\x0c'].contains c

/-- Digit list to the natural number it denotes in base 10. -/
def digitsToNat (ds : List Char) : Nat :=
  ds.foldl (fun a c => a * 10 + (c.toNat - 48)) 0

/-- The optionally signed digit run after the `e`/`E` of a float literal;
an empty digit run contributes exponent 0, as `parseFloat` then simply does
not consume the exponent part. -/
def signedExpDigits : List Char → Int
  | '-' :: r => -(digitsToNat (r.takeWhile Char.isDigit) : Int)
  | '+' :: r => (digitsToNat (r.takeWhile Char.isDigit) : Int)
  | r => (digitsToNat (r.takeWhile Char.isDigit) : Int)

/-- The longest decimal-literal prefix `digits [. digits] [e [sign] digits]`
of a character list, or `none` when no leading digit exists on either side
of the dot — the case `parseFloat` turns into NaN. -/
def parseDecimal (cs : List Char) : Option ℚ :=
  let ip := cs.takeWhile Char.isDigit
  let rest := cs.dropWhile Char.isDigit
  let fp := match rest with
    | '.' :: r => r.takeWhile Char.isDigit
    | _ => []
  let rest2 := match rest with
    | '.' :: r => r.dropWhile Char.isDigit
    | _ => rest
  if ip.isEmpty && fp.isEmpty then
    none
  else
    let mant : ℚ := (digitsToNat (ip ++ fp) : ℚ) / (10 : ℚ) ^ fp.length
    let e : Int := match rest2 with
      | 'e' :: r => signedExpDigits r
      | 'E' :: r => signedExpDigits r
      | _ => 0
    some (mant * (10 : ℚ) ^ e)

/-- The characters of the literal `Infinity`. -/
def infinityChars : List Char := ['I', 'n', 'f', 'i', 'n', 'i', 't', 'y']

/-- `parseFloat` on a string: strip leading whitespace, read an optional
sign, then `Infinity` or the longest decimal-literal prefix; NaN when
nothing numeric leads the string. -/
def parseFloatString (s : String) : JsNum :=
  let cs := s.toList.dropWhile isJsWhitespace
  match cs with
  | '-' :: r =>
    if infinityChars.isPrefixOf r then .inf true
    else
      match parseDecimal r with
      | some q => .val (-q)
      | none => .nan
  | '+' :: r =>
    if infinityChars.isPrefixOf r then .inf false
    else
      match parseDecimal r with
      | some q => .val q
      | none => .nan
  | r =>
    if infinityChars.isPrefixOf r then .inf false
    else
      match parseDecimal r with
      | some q => .val q
      | none => .nan

/-- `parseFloat` on a JS value: a number is returned unchanged (JS
stringifies and reparses it, which round-trips), a string is parsed, and
`undefined` stringifies to `"undefined"`, hence NaN. -/
def parseFloat : JSVal → JsNum
  | .num n => n
  | .str s => parseFloatString s
  | .undefined => .nan

/-- The `chartData` element built by `dblClickFn`:
`{ name, time, value }`.  `time` is declared `string[]` in the source but
receives `_item[0]` unchanged, so it is embedded at the JS value type. -/
structure ChartSeries where
  name : String
  time : List JSVal
  value : List JsNum
  deriving DecidableEq

/-- JS array indexing `arr[i]`: `undefined` beyond the end. -/
def jsIndex (xs : List JSVal) (i : Nat) : JSVal := xs.getD i .undefined

/-- One iteration of the `for (const [key, value] of Object.entries(data))`
loop in `dblClickFn`: `value.map` pushes `_item[0]` onto `_time` and
`parseFloat(_item[1])` onto `_value`, and the triple is pushed onto
`chartDatas`.  A point is `Object.values(item)`, a JS value list. -/
def chartEntry (key : String) (points : List (List JSVal)) : ChartSeries :=
  { name := key
    time := points.map (fun item => jsIndex item 0)
    value := points.map (fun item => parseFloat (jsIndex item 1)) }

/-- The whole reshaping loop of `dblClickFn`: one `ChartSeries` per payload
entry, in entry order (`Object.entries` enumerates string keys in insertion
order, so the payload is embedded as an association list in that order). -/
def reshape (payload : List (String × List (List JSVal))) : List ChartSeries :=
  payload.map (fun e => chartEntry e.1 e.2)

/-! ### Helper lemmas on association-list lookup and the concrete table -/

theorem lookup_isSome_iff_mem_keys (k : String) (l : List (String × String)) :
    (List.lookup k l).isSome = true ↔ k ∈ l.map Prod.fst := by
  induction l with
  | nil => simp [List.lookup]
  | cons p t ih =>
    obtain ⟨a, b⟩ := p
    by_cases h : k = a
    · subst h
      simp [List.lookup]
    · have hb : (k == a) = false := beq_false_of_ne h
      simp [List.lookup, hb, ih, h]

theorem lookup_eq_some_of_mem (k v : String) (l : List (String × String))
    (hmem : (k, v) ∈ l) (hnd : (l.map Prod.fst).Nodup) :
    List.lookup k l = some v := by
  induction l with
  | nil => cases hmem
  | cons p t ih =>
    obtain ⟨a, b⟩ := p
    have hnd' : a ∉ t.map Prod.fst ∧ (t.map Prod.fst).Nodup := by
      simpa using hnd
    rcases List.mem_cons.mp hmem with heq | ht
    · obtain ⟨rfl, rfl⟩ := Prod.mk.injEq .. ▸ heq
      simp [List.lookup]
    · have hk : k ∈ t.map Prod.fst := List.mem_map.mpr ⟨(k, v), ht, rfl⟩
      have hne : (k == a) = false := by
        apply beq_false_of_ne
        rintro rfl
        exact hnd'.1 hk
      simp only [List.lookup, hne]
      exact ih ht hnd'.2

theorem table_keys_nodup : (ADCODE_TO_PROVINCE.map Prod.fst).Nodup := by decide

theorem table_keys_sixDigit :
    ∀ p ∈ ADCODE_TO_PROVINCE, sixDigitPattern p.1 = true := by decide

theorem resolveName_of_mem (c v : String) (r : Option String)
    (h : (c, v) ∈ ADCODE_TO_PROVINCE) :
    getProvinceNameByAdcode (.str c) ⟨true, r⟩ = v := by
  have hsix := table_keys_sixDigit (c, v) h
  have hlk := lookup_eq_some_of_mem c v _ h table_keys_nodup
  simp [getProvinceNameByAdcode, toCodeStr] at hsix hlk ⊢
  simp [hsix, hlk]

/-- Case equation for `getProvinceNameByAdcode`: the looked-up name when all
three guards pass, the fallback otherwise. -/
theorem resolveName_eq (a : AdcodeInput) (o : ResolveOptions) :
    getProvinceNameByAdcode a o =
      if sixDigitPattern (toCodeStr a)
          && !(!o.includeSpecialRegions && SPECIAL_REGION_CODES.contains (toCodeStr a))
          && (List.lookup (toCodeStr a) ADCODE_TO_PROVINCE).isSome
      then (List.lookup (toCodeStr a) ADCODE_TO_PROVINCE).getD (toCodeStr a)
      else o.returnDefault.getD (toCodeStr a) := by
  unfold getProvinceNameByAdcode
  cases hsix : sixDigitPattern (toCodeStr a) <;>
    cases hspec : o.includeSpecialRegions <;>
      by_cases hmem : toCodeStr a ∈ SPECIAL_REGION_CODES <;>
        cases hlk : List.lookup (toCodeStr a) ADCODE_TO_PROVINCE <;>
          simp [hsix, hspec, hmem, hlk]

/-! ### Claim theorems -/

/-- C1: for every input adcode (string or number) and options,
`getProvinceNameByAdcode` returns `returnDefault` if provided, else
`String(adcode)`, exactly when the normalised string fails `/^\d{6}$/`, or
`includeSpecialRegions` is false and it is one of `"710000"`, `"810000"`,
`"820000"`, or it is not a key of the table; otherwise it returns the
table entry; in particular `getProvinceNameByAdcode("710000")` is `"台湾省"`
by default but `"710000"` when `includeSpecialRegions` is false. -/
theorem C1_resolveName_cases (a : AdcodeInput) (o : ResolveOptions) :
    (sixDigitPattern (toCodeStr a) = false
        ∨ (o.includeSpecialRegions = false ∧ toCodeStr a ∈ SPECIAL_REGION_CODES)
        ∨ List.lookup (toCodeStr a) ADCODE_TO_PROVINCE = none →
      getProvinceNameByAdcode a o = o.returnDefault.getD (toCodeStr a))
    ∧ (∀ name : String, sixDigitPattern (toCodeStr a) = true →
        ¬(o.includeSpecialRegions = false ∧ toCodeStr a ∈ SPECIAL_REGION_CODES) →
        List.lookup (toCodeStr a) ADCODE_TO_PROVINCE = some name →
        getProvinceNameByAdcode a o = name)
    ∧ getProvinceNameByAdcode (.str "710000") defaultResolveOptions = "台湾省"
    ∧ getProvinceNameByAdcode (.str "710000") ⟨false, none⟩ = "710000" := by
  refine ⟨?_, ?_, by decide, by decide⟩
  · intro h
    rw [resolveName_eq]
    rcases h with h | ⟨h1, h2⟩ | h
    · simp [h]
    · simp [h1, h2]
    · simp [h]
  · intro name h1 h2 h3
    rw [resolveName_eq]
    cases hspec : o.includeSpecialRegions with
    | true => simp [h1, h3, hspec]
    | false =>
      have hmem : toCodeStr a ∉ SPECIAL_REGION_CODES := fun hm => h2 ⟨hspec, hm⟩
      simp [h1, h3, hspec, hmem]

theorem C1_resolveName_cases_witness :
    getProvinceNameByAdcode (.str "abc") defaultResolveOptions = "abc" :=
  (C1_resolveName_cases (.str "abc") defaultResolveOptions).1 (Or.inl (by decide))

/-- C2: for every key of the table, with default options the forward lookup
returns the table entry, and the reverse lookup of that entry returns the
key (round-trip). -/
theorem C2_table_roundtrip :
    ∀ p ∈ ADCODE_TO_PROVINCE,
      getProvinceNameByAdcode (.str p.1) defaultResolveOptions = p.2
      ∧ getAdcodeByProvinceName p.2 = some p.1 := by decide

theorem C2_table_roundtrip_witness :
    getProvinceNameByAdcode (.str "110000") defaultResolveOptions = "北京市"
    ∧ getAdcodeByProvinceName "北京市" = some "110000" :=
  C2_table_roundtrip ("110000", "北京市") (by decide)

/-- C3: `isValidProvinceAdcode` is true iff the normalised string matches
`/^\d{6}$/`, is not excluded by the special-region policy, and is a key of
the table; in particular it accepts `"440000"` and rejects `"000000"`. -/
theorem C3_isValid_iff (a : AdcodeInput) (o : PolicyOptions) :
    (isValidProvinceAdcode a o = true ↔
      sixDigitPattern (toCodeStr a) = true
      ∧ ¬(o.includeSpecialRegions = false ∧ toCodeStr a ∈ SPECIAL_REGION_CODES)
      ∧ toCodeStr a ∈ ADCODE_TO_PROVINCE.map Prod.fst)
    ∧ isValidProvinceAdcode (.str "440000") ⟨true⟩ = true
    ∧ isValidProvinceAdcode (.str "000000") ⟨true⟩ = false := by
  refine ⟨?_, by decide, by decide⟩
  rw [← lookup_isSome_iff_mem_keys]
  unfold isValidProvinceAdcode
  cases hsix : sixDigitPattern (toCodeStr a) <;>
    cases hspec : o.includeSpecialRegions <;>
      by_cases hmem : toCodeStr a ∈ SPECIAL_REGION_CODES <;>
        simp [hsix, hspec, hmem]

theorem C3_isValid_iff_witness :
    isValidProvinceAdcode (.str "440000") ⟨true⟩ = true :=
  (C3_isValid_iff (.str "440000") ⟨true⟩).1.mpr
    ⟨by decide, by decide, by decide⟩

/-- C4: the reshape loop yields exactly one `ChartSeries` per payload entry,
with `time` and `value` of the same length as the entry's point list, and
the empty payload yields the empty list. -/
theorem C4_reshape_shape (payload : List (String × List (List JSVal))) :
    (reshape payload).length = payload.length
    ∧ (∀ (i : Nat) (k : String) (pts : List (List JSVal)),
        payload[i]? = some (k, pts) →
        ∃ cs : ChartSeries, (reshape payload)[i]? = some cs
          ∧ cs.name = k ∧ cs.time.length = pts.length
          ∧ cs.value.length = pts.length)
    ∧ reshape [] = [] := by
  refine ⟨List.length_map .., ?_, rfl⟩
  intro i k pts h
  refine ⟨chartEntry k pts, ?_, rfl, List.length_map .., List.length_map ..⟩
  simp [reshape, List.getElem?_map, h, chartEntry]

theorem C4_reshape_shape_witness :
    ∃ cs : ChartSeries,
      (reshape [("GDP", [[JSVal.str "2020", JSVal.str "100.5"]])])[0]?
        = some cs
      ∧ cs.name = "GDP"
      ∧ cs.time.length = [[JSVal.str "2020", JSVal.str "100.5"]].length
      ∧ cs.value.length = [[JSVal.str "2020", JSVal.str "100.5"]].length :=
  (C4_reshape_shape [("GDP", [[JSVal.str "2020", JSVal.str "100.5"]])]).2.1
    0 "GDP" [[JSVal.str "2020", JSVal.str "100.5"]] rfl

/-- C5: an observation whose value component parses to NaN contributes the
NaN sentinel at its own position of the `value` sequence; the series is
still produced in full (same lengths, every other position is the parse of
its own observation), and nothing is raised — the embedding is total. -/
theorem C5_reshape_nan (payload : List (String × List (List JSVal)))
    (k : String) (pts : List (List JSVal)) (i : Nat) (pt : List JSVal)
    (hmem : (k, pts) ∈ payload) (hpt : pts[i]? = some pt)
    (hnan : parseFloat (jsIndex pt 1) = JsNum.nan) :
    ∃ cs : ChartSeries, cs ∈ reshape payload ∧ cs.name = k
      ∧ cs.value[i]? = some JsNum.nan
      ∧ cs.value.length = pts.length
      ∧ cs.time.length = pts.length
      ∧ ∀ (j : Nat) (q : List JSVal), pts[j]? = some q →
          cs.value[j]? = some (parseFloat (jsIndex q 1)) := by
  refine ⟨chartEntry k pts, List.mem_map.mpr ⟨(k, pts), hmem, rfl⟩, rfl, ?_,
    List.length_map .., List.length_map .., ?_⟩
  · show (pts.map fun item => parseFloat (jsIndex item 1))[i]? = some JsNum.nan
    rw [List.getElem?_map, hpt]
    simp [hnan]
  · intro j q hq
    show (pts.map fun item => parseFloat (jsIndex item 1))[j]?
      = some (parseFloat (jsIndex q 1))
    rw [List.getElem?_map, hq]
    rfl

theorem C5_reshape_nan_witness :
    ∃ cs : ChartSeries,
      cs ∈ reshape [("S", [[JSVal.str "t0", JSVal.str "abc"]])] ∧ cs.name = "S"
      ∧ cs.value[0]? = some JsNum.nan
      ∧ cs.value.length = [[JSVal.str "t0", JSVal.str "abc"]].length
      ∧ cs.time.length = [[JSVal.str "t0", JSVal.str "abc"]].length
      ∧ ∀ (j : Nat) (q : List JSVal),
          [[JSVal.str "t0", JSVal.str "abc"]][j]? = some q →
          cs.value[j]? = some (parseFloat (jsIndex q 1)) :=
  C5_reshape_nan [("S", [[JSVal.str "t0", JSVal.str "abc"]])] "S"
    [[JSVal.str "t0", JSVal.str "abc"]] 0 [JSVal.str "t0", JSVal.str "abc"]
    (List.mem_singleton.mpr rfl) rfl rfl

/-- C6: enumerating adcodes returns the table's keys in definition order;
excluding special regions removes exactly `"710000"`, `"810000"`,
`"820000"`.  Stability across repeated calls is immediate: the embedding is
a pure function of its options (the source recomputes `Object.keys` of the
same immutable constant each call). -/
theorem C6_getAllProvinceAdcodes_spec (o : PolicyOptions) :
    getAllProvinceAdcodes o =
      if o.includeSpecialRegions then
        ["110000", "120000", "130000", "140000", "150000",
         "210000", "220000", "230000",
         "310000", "320000", "330000", "340000", "350000", "360000", "370000",
         "410000", "420000", "430000", "440000", "450000", "460000",
         "500000", "510000", "520000", "530000", "540000",
         "610000", "620000", "630000", "640000", "650000",
         "710000", "810000", "820000"]
      else
        ["110000", "120000", "130000", "140000", "150000",
         "210000", "220000", "230000",
         "310000", "320000", "330000", "340000", "350000", "360000", "370000",
         "410000", "420000", "430000", "440000", "450000", "460000",
         "500000", "510000", "520000", "530000", "540000",
         "610000", "620000", "630000", "640000", "650000"] := by
  obtain ⟨b⟩ := o
  cases b <;> decide

theorem C6_getAllProvinceAdcodes_witness :
    getAllProvinceAdcodes ⟨false⟩ =
      ["110000", "120000", "130000", "140000", "150000",
       "210000", "220000", "230000",
       "310000", "320000", "330000", "340000", "350000", "360000", "370000",
       "410000", "420000", "430000", "440000", "450000", "460000",
       "500000", "510000", "520000", "530000", "540000",
       "610000", "620000", "630000", "640000", "650000"] :=
  (C6_getAllProvinceAdcodes_spec ⟨false⟩).trans (by rfl)

theorem mem_of_lookup_eq_some (k v : String) (l : List (String × String))
    (h : List.lookup k l = some v) : (k, v) ∈ l := by
  induction l with
  | nil => simp [List.lookup] at h
  | cons p t ih =>
    obtain ⟨a, b⟩ := p
    by_cases hk : k = a
    · subst hk
      simp [List.lookup] at h
      simp [h]
    · have hb : (k == a) = false := beq_false_of_ne hk
      simp only [List.lookup, hb] at h
      exact List.mem_cons_of_mem _ (ih h)

/-- C7: the resolver is a total function into strings — the embedding of
every operation the source performs (`String(...)`, the regex test, array
`includes`, object indexing, `??`) is total, so no exception can arise —
and its result is always either a table value or the fallback
`returnDefault ?? String(adcode)`. -/
theorem C7_resolveName_total (a : AdcodeInput) (o : ResolveOptions) :
    getProvinceNameByAdcode a o ∈ ADCODE_TO_PROVINCE.map Prod.snd
    ∨ getProvinceNameByAdcode a o = o.returnDefault.getD (toCodeStr a) := by
  rw [resolveName_eq]
  split
  · rename_i h
    rw [Bool.and_eq_true, Bool.and_eq_true] at h
    obtain ⟨v, hv⟩ := Option.isSome_iff_exists.mp h.2
    left
    rw [hv]
    exact List.mem_map.mpr ⟨(toCodeStr a, v), mem_of_lookup_eq_some _ _ _ hv, rfl⟩
  · right
    rfl

theorem C7_resolveName_total_witness :
    getProvinceNameByAdcode (.str "110000") defaultResolveOptions
        ∈ ADCODE_TO_PROVINCE.map Prod.snd
    ∨ getProvinceNameByAdcode (.str "110000") defaultResolveOptions
        = defaultResolveOptions.returnDefault.getD (toCodeStr (.str "110000")) :=
  C7_resolveName_total (.str "110000") defaultResolveOptions

/-- Counterexample for C8 as stated: the loop body pushes `_item[0]` onto
`_time` unchanged, with no string coercion, so a numeric first component
survives as a number in the produced `time` sequence. -/
theorem C8_time_not_coerced_counterexample :
    (reshape [("S", [[JSVal.num (JsNum.val 5), JSVal.str "1"]])]).map
        (fun cs => cs.time)
      = [[JSVal.num (JsNum.val 5)]]
    ∧ JSVal.isStr (JSVal.num (JsNum.val 5)) = false :=
  ⟨rfl, rfl⟩

/-- C8 amended: for every payload entry, the produced series carries
`time[i]` as `points[i]`'s first component passed through unchanged — hence
a string exactly when the incoming component already is one, as the
declared payload type assumes — and `value[i]` as `points[i]`'s second
component parsed as a floating-point number. -/
theorem C8_reshape_components (payload : List (String × List (List JSVal)))
    (k : String) (pts : List (List JSVal)) (hmem : (k, pts) ∈ payload) :
    ∃ cs : ChartSeries, cs ∈ reshape payload
      ∧ cs.name = k
      ∧ cs.time = pts.map (fun pt => jsIndex pt 0)
      ∧ cs.value = pts.map (fun pt => parseFloat (jsIndex pt 1))
      ∧ ((∀ pt ∈ pts, (jsIndex pt 0).isStr = true) →
          ∀ t ∈ cs.time, t.isStr = true) := by
  refine ⟨chartEntry k pts, List.mem_map.mpr ⟨(k, pts), hmem, rfl⟩,
    rfl, rfl, rfl, ?_⟩
  intro hall t ht
  obtain ⟨pt, hpt, rfl⟩ := List.mem_map.mp ht
  exact hall pt hpt

theorem C8_reshape_components_witness :
    ∃ cs : ChartSeries,
      cs ∈ reshape [("GDP", [[JSVal.str "2020", JSVal.str "100.5"]])]
      ∧ cs.name = "GDP"
      ∧ cs.time
          = [[JSVal.str "2020", JSVal.str "100.5"]].map (fun pt => jsIndex pt 0)
      ∧ cs.value
          = [[JSVal.str "2020", JSVal.str "100.5"]].map
              (fun pt => parseFloat (jsIndex pt 1))
      ∧ ((∀ pt ∈ [[JSVal.str "2020", JSVal.str "100.5"]],
            (jsIndex pt 0).isStr = true) →
          ∀ t ∈ cs.time, t.isStr = true) :=
  C8_reshape_components [("GDP", [[JSVal.str "2020", JSVal.str "100.5"]])]
    "GDP" [[JSVal.str "2020", JSVal.str "100.5"]] (List.mem_singleton.mpr rfl)

/-- Case equation for `isValidProvinceAdcode` as one boolean conjunction. -/
theorem isValid_eq (a : AdcodeInput) (o : PolicyOptions) :
    isValidProvinceAdcode a o =
      (sixDigitPattern (toCodeStr a)
        && !(!o.includeSpecialRegions
              && SPECIAL_REGION_CODES.contains (toCodeStr a))
        && (List.lookup (toCodeStr a) ADCODE_TO_PROVINCE).isSome) := by
  unfold isValidProvinceAdcode
  cases hsix : sixDigitPattern (toCodeStr a) <;>
    cases hspec : o.includeSpecialRegions <;>
      by_cases hmem : toCodeStr a ∈ SPECIAL_REGION_CODES <;>
        simp [hsix, hspec, hmem]

theorem keys_sixDigit (k : String)
    (hk : k ∈ ADCODE_TO_PROVINCE.map Prod.fst) : sixDigitPattern k = true := by
  obtain ⟨p, hp, rfl⟩ := List.mem_map.mp hk
  exact table_keys_sixDigit p hp

/-- C9: the validity predicate and the enumeration agree — an input is
accepted by `isValidProvinceAdcode` exactly when its normalised string
occurs in `getAllProvinceAdcodes` under the same policy. -/
theorem C9_isValid_iff_mem_getAll (a : AdcodeInput) (o : PolicyOptions) :
    isValidProvinceAdcode a o = true ↔
      toCodeStr a ∈ getAllProvinceAdcodes o := by
  rw [isValid_eq]
  obtain ⟨b⟩ := o
  constructor
  · intro h
    rw [Bool.and_eq_true, Bool.and_eq_true] at h
    have hk : toCodeStr a ∈ ADCODE_TO_PROVINCE.map Prod.fst :=
      (lookup_isSome_iff_mem_keys _ _).mp h.2
    cases b with
    | true => simpa [getAllProvinceAdcodes] using hk
    | false =>
      have hns : toCodeStr a ∉ SPECIAL_REGION_CODES := by
        simpa using h.1.2
      simp [getAllProvinceAdcodes, List.mem_filter, hk, hns]
  · intro hmem
    cases b with
    | true =>
      have hk : toCodeStr a ∈ ADCODE_TO_PROVINCE.map Prod.fst := by
        simpa [getAllProvinceAdcodes] using hmem
      simp [keys_sixDigit _ hk, (lookup_isSome_iff_mem_keys _ _).mpr hk]
    | false =>
      have hk : toCodeStr a ∈ ADCODE_TO_PROVINCE.map Prod.fst ∧
          toCodeStr a ∉ SPECIAL_REGION_CODES := by
        have h := hmem
        simp [getAllProvinceAdcodes, List.mem_filter] at h
        obtain ⟨⟨x, hx⟩, hns⟩ := h
        exact ⟨List.mem_map.mpr ⟨(toCodeStr a, x), hx, rfl⟩, hns⟩
      simp [keys_sixDigit _ hk.1, (lookup_isSome_iff_mem_keys _ _).mpr hk.1,
        hk.2]

theorem C9_isValid_iff_mem_getAll_witness :
    isValidProvinceAdcode (.str "440000") ⟨false⟩ = true :=
  (C9_isValid_iff_mem_getAll (.str "440000") ⟨false⟩).mpr (by decide)

/-- C10: a name occurring as a table value reverse-resolves to a key whose
forward resolution (default options) gives the name back; a name not
occurring as a table value reverse-resolves to null. -/
theorem C10_reverse_roundtrip (name : String) :
    (name ∈ ADCODE_TO_PROVINCE.map Prod.snd →
      ∃ c : String, getAdcodeByProvinceName name = some c
        ∧ getProvinceNameByAdcode (.str c) defaultResolveOptions = name)
    ∧ (name ∉ ADCODE_TO_PROVINCE.map Prod.snd →
      getAdcodeByProvinceName name = none) := by
  constructor
  · intro hmem
    obtain ⟨p, hp, hpn⟩ := List.mem_map.mp hmem
    have hsome : (ADCODE_TO_PROVINCE.find? (fun e => e.2 == name)).isSome :=
      List.find?_isSome.mpr ⟨p, hp, by simp [hpn]⟩
    obtain ⟨e, he⟩ := Option.isSome_iff_exists.mp hsome
    have hname : e.2 = name := by simpa using List.find?_some he
    have hmem' : e ∈ ADCODE_TO_PROVINCE := List.mem_of_find?_eq_some he
    refine ⟨e.1, by simp [getAdcodeByProvinceName, he], ?_⟩
    have hres := resolveName_of_mem e.1 e.2 none hmem'
    exact hname ▸ hres
  · intro hnm
    have hnone : ADCODE_TO_PROVINCE.find? (fun e => e.2 == name) = none := by
      rw [List.find?_eq_none]
      intro x hx hb
      exact hnm (List.mem_map.mpr ⟨x, hx, by simpa using hb⟩)
    simp [getAdcodeByProvinceName, hnone]

theorem C10_reverse_roundtrip_witness :
    ∃ c : String, getAdcodeByProvinceName "北京市" = some c
      ∧ getProvinceNameByAdcode (.str c) defaultResolveOptions = "北京市" :=
  (C10_reverse_roundtrip "北京市").1 (by decide)

end ChinaData
